import Mathlib

/-!
Verification of the batch-execution subsystem of the `agent-browser` Python
wrapper (`src/agent_browser/agent_browser.py` and `async_agent_browser.py`).

The development shallowly embeds the code paths the specification talks
about: JSON envelope decoding, command-line construction, batch script
rendering and result reconstruction, the single-command runner, and the
session helpers.  External effects (subprocess execution, file removal) are
modelled by explicit outcome parameters, so every embedded function is a
pure, executable Lean definition.
-/

set_option autoImplicit false

namespace AgentBrowser

/-- JSON values as decoded by `json.loads`.  Numbers are restricted to
integers (the outputs exercised here contain no floating-point literals). -/
inductive JVal where
  | null
  | bool (b : Bool)
  | num (n : Int)
  | str (s : String)
  | arr (elems : List JVal)
  | obj (fields : List (String × JVal))

/-- First binding of a key in an association list, as `dict` lookup. -/
def lookupField : List (String × JVal) → String → Option JVal
  | [], _ => none
  | (k, v) :: fs, key => if k = key then some v else lookupField fs key

/-- Python `data.get(key)`: `none` when the value is not an object or the
key is absent. -/
def jget : JVal → String → Option JVal
  | .obj fs, k => lookupField fs k
  | _, _ => none

/-- Python `data.get(key, default)`. -/
def jgetD (v : JVal) (k : String) (d : JVal) : JVal := (jget v k).getD d

/-- Python `key in data` for an object. -/
def hasKey (v : JVal) (k : String) : Bool := (jget v k).isSome

/-- Whether a decoded value is a `dict` (`isinstance(data, dict)`). -/
def isObj : JVal → Bool
  | .obj _ => true
  | _ => false

/-- Python truthiness of an optional decoded value, as used by
`if data.get("success"):` — `None`, `False`, `0`, `""`, `[]` and empty
objects are falsy. -/
def truthy : Option JVal → Bool
  | none => false
  | some .null => false
  | some (.bool b) => b
  | some (.num n) => n != 0
  | some (.str s) => s != ""
  | some (.arr xs) => !xs.isEmpty
  | some (.obj fs) => !fs.isEmpty

/-! ### A small executable JSON parser (model of `json.loads`)

The parser accepts the JSON fragment actually produced by the tool's
envelopes: `null`, booleans, integers, strings with simple escapes, arrays
and objects, with arbitrary surrounding whitespace.  It rejects trailing
garbage, like `json.loads`. -/

/-- JSON whitespace characters. -/
def isWs (c : Char) : Bool := c = ' ' || c = '\t' || c = '\n' || c = '\r'

/-- The whitespace characters stripped by Python's `str.strip()`. -/
def isPySpace (c : Char) : Bool :=
  c = ' ' || c = '\t' || c = '\n' || c = '\r' || c = '\x0b' || c = '\x0c'

/-- Drop leading Python whitespace. -/
def dropSpace : List Char → List Char
  | [] => []
  | c :: cs => if isPySpace c then dropSpace cs else c :: cs

/-- Model of Python `s.strip()`. -/
def pyStrip (s : String) : String :=
  String.mk ((dropSpace (dropSpace s.data.reverse).reverse))

/-- Model of Python `s.split("\n")` on the character list. -/
def splitNlL : List Char → List (List Char)
  | [] => [[]]
  | c :: cs =>
    if c = '\n' then [] :: splitNlL cs
    else
      match splitNlL cs with
      | w :: ws => (c :: w) :: ws
      | [] => [[c]]

/-- Model of Python `s.split("\n")`: at least one piece, empty input
giving `[""]`. -/
def splitNl (s : String) : List String := (splitNlL s.data).map String.mk

/-- Whether a string starts with the given character (the
`line.startswith` test on the left-brace character). -/
def headIs (c : Char) (s : String) : Bool :=
  match s.data with
  | d :: _ => d = c
  | [] => false

/-- Whether a string ends with the given character (the `line.endswith`
test on the right-brace character). -/
def lastIs (c : Char) (s : String) : Bool :=
  match s.data.reverse with
  | d :: _ => d = c
  | [] => false

/-- Drop leading whitespace. -/
def skipWs : List Char → List Char
  | [] => []
  | c :: cs => if isWs c then skipWs cs else c :: cs

/-- Parse the body of a JSON string after the opening quote, handling the
simple escape sequences.  Returns the decoded string and the rest. -/
def parseStringBody : List Char → Option (String × List Char)
  | [] => none
  | c :: cs =>
    if c = '"' then some ("", cs)
    else if c = '\\' then
      match cs with
      | [] => none
      | e :: cs' =>
        let ec : Option Char :=
          if e = '"' then some '"'
          else if e = '\\' then some '\\'
          else if e = '/' then some '/'
          else if e = 'n' then some '\n'
          else if e = 't' then some '\t'
          else if e = 'r' then some '\r'
          else none
        match ec with
        | none => none
        | some ch => (parseStringBody cs').map (fun p => (String.mk (ch :: p.1.data), p.2))
    else (parseStringBody cs).map (fun p => (String.mk (c :: p.1.data), p.2))

/-- Decimal digit value. -/
def digitVal (c : Char) : Option Nat :=
  if '0' ≤ c ∧ c ≤ '9' then some (c.toNat - '0'.toNat) else none

/-- Consume a maximal run of digits, accumulating their value. -/
def parseNatAux : List Char → Nat → Nat × List Char
  | [], acc => (acc, [])
  | c :: cs, acc =>
    match digitVal c with
    | some d => parseNatAux cs (acc * 10 + d)
    | none => (acc, c :: cs)

mutual

/-- Fuel-indexed JSON value parser. -/
def parseVal : Nat → List Char → Option (JVal × List Char)
  | 0, _ => none
  | fuel + 1, cs =>
    match skipWs cs with
    | [] => none
    | c :: rest =>
      if c = '"' then (parseStringBody rest).map (fun p => (JVal.str p.1, p.2))
      else if c = '\x7b' then
        match skipWs rest with
        | '\x7d' :: r => some (JVal.obj [], r)
        | _ => (parseObjItems fuel rest).map (fun p => (JVal.obj p.1, p.2))
      else if c = '[' then
        match skipWs rest with
        | ']' :: r => some (JVal.arr [], r)
        | _ => (parseArrItems fuel rest).map (fun p => (JVal.arr p.1, p.2))
      else if c = 't' then
        match rest with
        | 'r' :: 'u' :: 'e' :: r => some (JVal.bool true, r)
        | _ => none
      else if c = 'f' then
        match rest with
        | 'a' :: 'l' :: 's' :: 'e' :: r => some (JVal.bool false, r)
        | _ => none
      else if c = 'n' then
        match rest with
        | 'u' :: 'l' :: 'l' :: r => some (JVal.null, r)
        | _ => none
      else if c = '-' then
        match rest with
        | d :: _ =>
          match digitVal d with
          | some _ =>
            let p := parseNatAux rest 0
            some (JVal.num (-(p.1 : Int)), p.2)
          | none => none
        | [] => none
      else
        match digitVal c with
        | some _ =>
          let p := parseNatAux (c :: rest) 0
          some (JVal.num (p.1 : Int), p.2)
        | none => none

/-- Items of a JSON array after the opening bracket (nonempty case). -/
def parseArrItems : Nat → List Char → Option (List JVal × List Char)
  | 0, _ => none
  | fuel + 1, cs =>
    match parseVal fuel cs with
    | none => none
    | some (v, rest) =>
      match skipWs rest with
      | ',' :: r => (parseArrItems fuel r).map (fun p => (v :: p.1, p.2))
      | ']' :: r => some ([v], r)
      | _ => none

/-- Members of a JSON object after the opening brace (nonempty case). -/
def parseObjItems : Nat → List Char → Option (List (String × JVal) × List Char)
  | 0, _ => none
  | fuel + 1, cs =>
    match skipWs cs with
    | '"' :: r1 =>
      match parseStringBody r1 with
      | none => none
      | some (k, r2) =>
        match skipWs r2 with
        | ':' :: r3 =>
          match parseVal fuel r3 with
          | none => none
          | some (v, r4) =>
            match skipWs r4 with
            | ',' :: r5 => (parseObjItems fuel r5).map (fun p => ((k, v) :: p.1, p.2))
            | '\x7d' :: r5 => some ([(k, v)], r5)
            | _ => none
        | _ => none
    | _ => none

end

/-- Model of `json.loads`: parse a complete JSON document, tolerating
surrounding whitespace; `none` corresponds to `json.JSONDecodeError`. -/
def jsonParse (s : String) : Option JVal :=
  match parseVal (s.length + 10) s.data with
  | some (v, rest) => if skipWs rest = [] then some v else none
  | none => none

/-! ### Controller configuration and queued commands -/

/-- Configuration of an `AgentBrowser` / `AsyncAgentBrowser` instance (the
constructor fields that `_build_command` consults). -/
structure Browser where
  session : Option String := none
  executablePath : Option String := none
  headed : Bool := false
  debug : Bool := false
  cdpPort : Option Nat := none

/-- The default-constructed controller. -/
def defaultBrowser : Browser := {}

/-- A queued batch command: `method`, positional `args`, and the keyword
flags the batch executors read out of `kwargs` (`json_output`,
`interactive_only`, `compact`, `headers`).  A `headers` value of `some hs`
models the key being present in `kwargs`. -/
structure Cmd where
  method : String
  args : List String := []
  jsonOutput : Bool := false
  interactiveOnly : Bool := false
  compact : Bool := false
  headers : Option (List (String × String)) := none
deriving DecidableEq

/-- The command queued by `BatchContext.get_title`. -/
def getTitleCmd : Cmd := { method := "get", args := ["title"], jsonOutput := true }

/-- The command queued by `BatchContext.click`. -/
def clickCmd (selector : String) : Cmd := { method := "click", args := [selector] }

/-- The command queued by `BatchContext.fill`. -/
def fillCmd (selector text : String) : Cmd := { method := "fill", args := [selector, text] }

/-- Minimal model of `json.dumps` on a flat string-valued dict, with the
default separators, as used for the `--headers` flag. -/
def jsonEscape (s : String) : String :=
  String.mk (s.data.foldr (fun c acc =>
    if c = '"' then '\\' :: '"' :: acc
    else if c = '\\' then '\\' :: '\\' :: acc
    else c :: acc) [])

/-- Render one `"key": "value"` member of a dumped headers object. -/
def dumpField (f : String × String) : String :=
  "\"" ++ jsonEscape f.1 ++ "\": \"" ++ jsonEscape f.2 ++ "\""

/-- Model of `json.dumps(headers)` for a string dict. -/
def jsonDumpsObj (fields : List (String × String)) : String :=
  "\x7b" ++ String.intercalate ", " (fields.map dumpField) ++ "\x7d"

/-- The `["--session", name]` fragment of a built command.  Python's
`if self.session:` treats the empty string as absent. -/
def sessionOpt (b : Browser) : List String :=
  match b.session with
  | some s => if s ≠ "" then ["--session", s] else []
  | none => []

/-- Model of `_build_command` (identical in the sync and async classes):
the common option prefix followed by the subcommand arguments.  The
truthiness tests of Python (`if self.executable_path:`, `if self.cdp_port:`)
make empty strings and port `0` act as absent. -/
def buildCommand (b : Browser) (args : List String) (jsonOutput : Bool) : List String :=
  ["agent-browser"]
  ++ sessionOpt b
  ++ (match b.executablePath with
      | some p => if p ≠ "" then ["--executable-path", p] else []
      | none => [])
  ++ (if b.headed then ["--headed"] else [])
  ++ (if b.debug then ["--debug"] else [])
  ++ (match b.cdpPort with
      | some p => if p ≠ 0 then ["--cdp", toString p] else []
      | none => [])
  ++ (if jsonOutput then ["--json"] else [])
  ++ args

/-- Per-command translation of `AgentBrowser.execute_batch` (the
`if method == ...` ladder building `cmd_parts`). -/
def translateCmdSync (b : Browser) (c : Cmd) : List String :=
  if c.method = "get" then buildCommand b ("get" :: c.args) c.jsonOutput
  else if c.method = "eval" then buildCommand b ("eval" :: c.args) c.jsonOutput
  else if c.method = "snapshot" then
    buildCommand b ("snapshot" ::
      ((if c.interactiveOnly then ["-i"] else []) ++ (if c.compact then ["-c"] else [])))
      c.jsonOutput
  else if c.method = "open" ∧ c.headers.isSome then
    buildCommand b (c.method :: c.args) false ++ ["--headers", jsonDumpsObj (c.headers.getD [])]
  else buildCommand b (c.method :: c.args) c.jsonOutput

/-- Per-command translation of `AsyncAgentBrowser.execute_batch`.  Note the
differences from the synchronous ladder: `snapshot` and `open` assemble the
line from scratch with only the session option, `snapshot` always appends
`--json`, and the default branch (including `eval`) never passes
`json_output` through. -/
def translateCmdAsync (b : Browser) (c : Cmd) : List String :=
  if c.method = "get" then buildCommand b ("get" :: c.args) c.jsonOutput
  else if c.method = "snapshot" then
    ["agent-browser"] ++ sessionOpt b ++ ["snapshot"]
    ++ (if c.interactiveOnly then ["--interactive-only"] else [])
    ++ (if c.compact then ["--compact"] else [])
    ++ ["--json"]
  else if c.method = "open" then
    ["agent-browser"] ++ sessionOpt b ++ ("open" :: c.args)
    ++ (match c.headers with
        | some hs => if hs ≠ [] then ["--headers", jsonDumpsObj hs] else []
        | none => [])
  else buildCommand b (c.method :: c.args) false

/-! ### Script-line rendering and shell word splitting -/

/-- Synchronous token rendering: quote a token exactly when it contains a
space character (the conditional f-string quoting of `escaped_cmd`). -/
def renderTokSyncL (t : List Char) : List Char :=
  if ' ' ∈ t then '"' :: t ++ ['"'] else t

/-- Asynchronous token rendering: every token of `cmd_parts` is quoted
unconditionally before joining. -/
def renderTokAsyncL (t : List Char) : List Char := '"' :: t ++ ['"']

/-- Join rendered tokens with single spaces (`" ".join(...)`). -/
def renderLineWith (f : List Char → List Char) : List (List Char) → List Char
  | [] => []
  | [t] => f t
  | t :: ts => f t ++ ' ' :: renderLineWith f ts

/-- The script line the synchronous `execute_batch` emits for a token list. -/
def renderLineSyncL (parts : List (List Char)) : List Char :=
  renderLineWith renderTokSyncL parts

/-- The script line the asynchronous `execute_batch` emits for a token list. -/
def renderLineAsyncL (parts : List (List Char)) : List Char :=
  renderLineWith renderTokAsyncL parts

/-- String-level rendering of one synchronous script line. -/
def renderLineSync (parts : List String) : String :=
  String.mk (renderLineSyncL (parts.map String.data))

/-- String-level rendering of one asynchronous script line. -/
def renderLineAsync (parts : List String) : String :=
  String.mk (renderLineAsyncL (parts.map String.data))

/-- Field-splitting characters of the shell (`IFS` whitespace). -/
def isIfs (c : Char) : Bool := c = ' ' || c = '\t' || c = '\n'

/-- POSIX-style word splitting of one command line, honouring double quotes
and treating all other characters literally.  The boolean tracks being
inside double quotes, the `Option` accumulates the current (possibly empty)
word.  An unterminated quote yields `none` (the shell reports a syntax
error rather than producing words). -/
def shSplit : List Char → Bool → Option (List Char) → Option (List (List Char))
  | [], true, _ => none
  | [], false, none => some []
  | [], false, some t => some [t]
  | c :: cs, inQ, cur =>
    if c = '"' then shSplit cs (!inQ) (some (cur.getD []))
    else if isIfs c ∧ inQ = false then
      match cur with
      | none => shSplit cs false none
      | some t => (shSplit cs false none).map (t :: ·)
    else shSplit cs inQ (some (cur.getD [] ++ [c]))

/-- The word list a shell extracts from one rendered script line. -/
def shellWords (line : List Char) : Option (List (List Char)) :=
  shSplit line false none

/-! ### Process outcomes and the single-command runners -/

/-- Outcome of one subprocess invocation: either the spawn itself fails
(`FileNotFoundError` / `OSError`), or the process runs to completion with
an exit code and captured output streams. -/
inductive ProcResult where
  | launchFail (msg : String)
  | done (returncode : Int) (stdout : String) (stderr : String)

/-- The Python exceptions that can escape the embedded functions.
`agentBrowserError` is the library's own error kind (its payload is the
exception argument); the other constructors are built-in exceptions that
some code paths leave uncaught. -/
inductive PyErr where
  | agentBrowserError (msg : JVal)
  | osError (msg : String)
  | attributeError (msg : String)

/-- Whether an escaped exception is the library's `AgentBrowserError`. -/
def isABE : PyErr → Bool
  | .agentBrowserError _ => true
  | _ => false

/-- Model of the synchronous `AgentBrowser._run`.  A spawn failure is not
caught (only `subprocess.CalledProcessError` is), so it escapes as an
`osError`; likewise `data.get` on a decoded non-dict raises an uncaught
`AttributeError`.  Python `None` results are modelled as `JVal.null`. -/
def runSync (b : Browser) (args : List String) (jsonOutput : Bool) (check : Bool)
    (proc : ProcResult) : Except PyErr JVal :=
  let _ := buildCommand b args jsonOutput
  match proc with
  | .launchFail m => .error (.osError m)
  | .done rc out err =>
    if check ∧ rc ≠ 0 then
      .error (.agentBrowserError (.str ("Command failed: " ++
        (if err ≠ "" then pyStrip err else "subprocess.CalledProcessError"))))
    else if jsonOutput ∧ out ≠ "" then
      match jsonParse out with
      | none => .error (.agentBrowserError (.str "Failed to parse JSON output"))
      | some d =>
        if isObj d then
          if truthy (jget d "success") then .ok (jgetD d "data" .null)
          else .error (.agentBrowserError (jgetD d "error" (.str "Unknown error")))
        else .error (.attributeError "no attribute get")
    else if out ≠ "" then .ok (.str (pyStrip out)) else .ok .null

/-- Model of the asynchronous `AsyncAgentBrowser._run`.  Its trailing
`except Exception` re-raises `AgentBrowserError` and wraps every other
exception — including spawn failures and `AttributeError` — into an
`AgentBrowserError`. -/
def runAsync (b : Browser) (args : List String) (jsonOutput : Bool) (check : Bool)
    (proc : ProcResult) : Except PyErr JVal :=
  let _ := buildCommand b args jsonOutput
  match proc with
  | .launchFail m =>
    .error (.agentBrowserError (.str ("Command execution failed: " ++ m)))
  | .done rc out err =>
    if check ∧ rc ≠ 0 then
      .error (.agentBrowserError (.str ("Command failed: " ++
        (if err ≠ "" then pyStrip err else "Unknown error"))))
    else
      let t := pyStrip out
      if jsonOutput ∧ t ≠ "" then
        match jsonParse t with
        | none => .error (.agentBrowserError (.str "Failed to parse JSON output"))
        | some d =>
          if isObj d then
            if truthy (jget d "success") then .ok (jgetD d "data" .null)
            else .error (.agentBrowserError (jgetD d "error" (.str "Unknown error")))
          else .error (.agentBrowserError (.str "Command execution failed: AttributeError"))
      else if t ≠ "" then .ok (.str t) else .ok .null

/-! ### Batch output parsing -/

/-- How the result-reconstruction loops classify one output line. -/
inductive LineClass where
  | skip
  | ok (data : JVal)
  | fail (err : JVal)

/-- Classification of one line by `AgentBrowser._parse_batch_results`: the
stripped line must look brace-delimited, decode as JSON, and be a dict with
a `success` key; otherwise the line is ignored. -/
def classifyLineSync (line : String) : LineClass :=
  let l := pyStrip line
  if headIs '\x7b' l ∧ lastIs '\x7d' l then
    match jsonParse l with
    | some d =>
      if isObj d ∧ hasKey d "success" then
        if truthy (jget d "success") then .ok (jgetD d "data" .null)
        else .fail (jgetD d "error" (.str "Command failed"))
      else .skip
    | none => .skip
  else .skip

/-- Classification of one line by the result loop of
`AsyncAgentBrowser.execute_batch`: empty lines are skipped, envelopes are
unwrapped or raise, other JSON is kept as-is, and non-JSON lines are kept
as raw strings. -/
def classifyLineAsync (line : String) : LineClass :=
  if line = "" then .skip
  else
    match jsonParse line with
    | some d =>
      if isObj d ∧ hasKey d "success" then
        if truthy (jget d "success") then .ok (jgetD d "data" .null)
        else .fail (jgetD d "error" (.str "Command failed"))
      else .ok d
    | none => .ok (.str line)

/-- The `data` payloads of the success envelopes, in output order; the
first `success: false` envelope aborts with its error payload
(the loop body of `_parse_batch_results`). -/
def collectJsonResults : List String → Except JVal (List JVal)
  | [] => .ok []
  | l :: ls =>
    match classifyLineSync l with
    | .skip => collectJsonResults ls
    | .fail e => .error e
    | .ok d =>
      match collectJsonResults ls with
      | .error e => .error e
      | .ok ds => .ok (d :: ds)

/-- The line list of the synchronous parser:
`output.strip().split("\n") if output.strip() else []`. -/
def splitLines (output : String) : List String :=
  let t := pyStrip output
  if t = "" then [] else splitNl t

/-- The assignment loop of `_parse_batch_results`: write the collected
payloads into the slots named by `json_indices`, stopping when the
payloads run out. -/
def setSlots (results : List JVal) : List Nat → List JVal → List JVal
  | [], _ => results
  | _, [] => results
  | i :: is, r :: rs => setSlots (results.set i r) is rs

/-- The queue positions of the commands whose `kwargs` request structured
output, counted from `start` (the `json_indices` accumulation of the
enumerate loop). -/
def jsonIndicesFrom (start : Nat) : List Cmd → List Nat
  | [] => []
  | c :: cs =>
    if c.jsonOutput then start :: jsonIndicesFrom (start + 1) cs
    else jsonIndicesFrom (start + 1) cs

/-- The `json_indices` list built for a command queue. -/
def jsonIndicesOf (cmds : List Cmd) : List Nat := jsonIndicesFrom 0 cmds

/-- Model of `AgentBrowser._parse_batch_results`. -/
def parseBatchResults (output : String) (jsonIndices : List Nat) (totalCommands : Nat) :
    Except PyErr (List JVal) :=
  match collectJsonResults (splitLines output) with
  | .error e => .error (.agentBrowserError e)
  | .ok jr => .ok (setSlots (List.replicate totalCommands JVal.null) jsonIndices jr)

/-- The line list of the asynchronous parser:
`stdout.decode().strip().split("\n")` (an empty capture yields `[""]`). -/
def asyncLines (output : String) : List String := splitNl (pyStrip output)

/-- The result loop of `AsyncAgentBrowser.execute_batch`: one entry is
appended per non-empty output line. -/
def parseAsyncLines : List String → Except PyErr (List JVal)
  | [] => .ok []
  | l :: ls =>
    match classifyLineAsync l with
    | .skip => parseAsyncLines ls
    | .fail e => .error (.agentBrowserError e)
    | .ok v =>
      match parseAsyncLines ls with
      | .error e => .error e
      | .ok vs => .ok (v :: vs)

/-- Result reconstruction of the asynchronous `execute_batch`. -/
def parseAsyncBatch (output : String) : Except PyErr (List JVal) :=
  parseAsyncLines (asyncLines output)

/-! ### Batch execution with the temporary-script lifecycle -/

/-- Observable outcome of one `execute_batch` call: the returned value or
escaped exception, together with how many subprocess invocations were
attempted and what happened to the temporary script file. -/
structure ExecOutcome where
  result : Except PyErr (List JVal)
  subprocessCalls : Nat
  tempFileCreated : Bool
  unlinkAttempted : Bool

/-- The script text assembled by the synchronous `execute_batch`. -/
def scriptLinesSync (b : Browser) (cmds : List Cmd) : List String :=
  "#!/bin/bash" :: "set -e" :: cmds.map (fun c => renderLineSync (translateCmdSync b c))

/-- The script text assembled by the asynchronous `execute_batch`. -/
def scriptLinesAsync (b : Browser) (cmds : List Cmd) : List String :=
  "#!/bin/bash" :: "set -e" :: cmds.map (fun c => renderLineAsync (translateCmdAsync b c))

/-- Model of the synchronous `AgentBrowser.execute_batch`.  `proc` is the
outcome of the single `subprocess.run(["bash", script_path], ...)` call and
`unlinkOk` whether `os.unlink` succeeds.  The empty queue returns early,
before any file or process is touched.  The `finally: os.unlink(...)`
clause is modelled faithfully: it runs on every exit path, and when the
unlink itself raises, that `OSError` replaces whatever was being returned
or raised. -/
def executeBatchSync (b : Browser) (cmds : List Cmd) (proc : ProcResult) (unlinkOk : Bool) :
    ExecOutcome :=
  if cmds = [] then ⟨.ok [], 0, false, false⟩
  else
    let _ := scriptLinesSync b cmds
    let res : Except PyErr (List JVal) :=
      match proc with
      | .launchFail m => .error (.osError m)
      | .done rc out err =>
        if rc ≠ 0 then .error (.agentBrowserError (.str ("Batch execution failed: " ++ err)))
        else parseBatchResults out (jsonIndicesOf cmds) cmds.length
    ⟨if unlinkOk then res else .error (.osError "unlink failed"), 1, true, true⟩

/-- Model of the asynchronous `AsyncAgentBrowser.execute_batch`.  There is
no empty-queue early return, and the cleanup is
`try: os.unlink(...) except Exception: pass`, so a failing unlink never
affects the result. -/
def executeBatchAsync (b : Browser) (cmds : List Cmd) (proc : ProcResult) (unlinkOk : Bool) :
    ExecOutcome :=
  let _ := scriptLinesAsync b cmds
  let _ := unlinkOk
  let res : Except PyErr (List JVal) :=
    match proc with
    | .launchFail m => .error (.osError m)
    | .done rc out err =>
      if rc ≠ 0 then
        .error (.agentBrowserError (.str ("Batch execution failed: " ++
          (if err ≠ "" then pyStrip err else "Unknown error"))))
      else parseAsyncBatch out
  ⟨res, 1, true, true⟩

/-! ### Batch-context scope exit -/

/-- Number of subprocess invocations performed by `BatchContext.__exit__`:
`execute_batch` runs only under `if self.commands and not exc_type`.
`exc` is the exception type active when the scope exits. -/
def batchExitCallsSync (b : Browser) (cmds : List Cmd) (exc : Option String)
    (proc : ProcResult) (unlinkOk : Bool) : Nat :=
  if cmds ≠ [] ∧ exc = none then (executeBatchSync b cmds proc unlinkOk).subprocessCalls
  else 0

/-- Number of subprocess invocations performed by
`AsyncBatchContext.__aexit__` (same guard as the synchronous context). -/
def batchExitCallsAsync (b : Browser) (cmds : List Cmd) (exc : Option String)
    (proc : ProcResult) (unlinkOk : Bool) : Nat :=
  if cmds ≠ [] ∧ exc = none then (executeBatchAsync b cmds proc unlinkOk).subprocessCalls
  else 0

/-! ### Session helpers -/

/-- Model of the static `AgentBrowser.list_sessions`.  A spawn failure of
`subprocess.run` is uncaught; on a completed process the body returns
`data.get("data", dict()).get("sessions", list())` when the envelope is a dict with
truthy `success`, and `[]` in every other completed case except the
uncaught `AttributeError` on non-dict JSON. -/
def listSessionsSync (proc : ProcResult) : Except PyErr JVal :=
  match proc with
  | .launchFail m => .error (.osError m)
  | .done rc out _ =>
    if rc = 0 ∧ out ≠ "" then
      match jsonParse out with
      | some d =>
        if isObj d then
          if truthy (jget d "success") then
            match jgetD d "data" (.obj []) with
            | .obj ds => .ok (jgetD (.obj ds) "sessions" (.arr []))
            | _ => .error (.attributeError "no attribute get")
          else .ok (.arr [])
        else .error (.attributeError "no attribute get")
      | none => .ok (.arr [])
    else .ok (.arr [])

/-- Model of the static `AsyncAgentBrowser.list_sessions`.  Note that it
returns `data.get("data", [])` without ever consulting the `success`
field. -/
def listSessionsAsync (proc : ProcResult) : Except PyErr JVal :=
  match proc with
  | .launchFail m => .error (.osError m)
  | .done rc out _ =>
    if rc = 0 ∧ out ≠ "" then
      match jsonParse (pyStrip out) with
      | some d =>
        if isObj d then .ok (jgetD d "data" (.arr []))
        else .error (.attributeError "no attribute get")
      | none => .ok (.arr [])
    else .ok (.arr [])

/-- The session names iterated by the sweep loops.  The external contract
(spec section 6) guarantees the listing data is an array of string
identifiers, so other shapes are modelled as contributing no names. -/
def jvalSessions : JVal → List String
  | .arr xs => xs.filterMap (fun v => match v with | .str s => some s | _ => none)
  | _ => []

/-- Counters observed during a session sweep. -/
structure SweepState where
  totalClosed : Nat
  listCalls : Nat
  closeCalls : Nat
deriving Repr, DecidableEq

/-- The per-session loop of the synchronous `close_all_sessions`: each
close is one `_run("close")`, `AgentBrowserError` is caught and skipped,
any other escaped exception propagates.  Returns the closed count of the
round and the updated close-call counter. -/
def closeRoundSync (closeProc : Nat → ProcResult) :
    List String → Nat → Nat → Except PyErr (Nat × Nat)
  | [], cc, k => .ok (k, cc)
  | s :: ss, cc, k =>
    match runSync { session := some s } ["close"] false true (closeProc cc) with
    | .ok _ => closeRoundSync closeProc ss (cc + 1) (k + 1)
    | .error (.agentBrowserError _) => closeRoundSync closeProc ss (cc + 1) k
    | .error e => .error e

/-- The retry loop of the synchronous `close_all_sessions`
(`for attempt in range(max_retries)`), with the extra
`attempt < max_retries - 1 and AgentBrowser.list_sessions()` listing that
guards the sleep.  `listProc` and `closeProc` give the outcome of the n-th
listing and close invocation respectively. -/
def closeAllGoSync (listProc : Nat → ProcResult) (closeProc : Nat → ProcResult)
    (maxRetries : Nat) : Nat → Nat → SweepState → Except PyErr SweepState
  | 0, _, st => .ok st
  | fuel + 1, attempt, st =>
    match listSessionsSync (listProc st.listCalls) with
    | .error e => .error e
    | .ok v =>
      let st := { st with listCalls := st.listCalls + 1 }
      let sessions := jvalSessions v
      if sessions = [] then .ok st
      else
        match closeRoundSync closeProc sessions st.closeCalls 0 with
        | .error e => .error e
        | .ok (k, cc) =>
          let st := { st with totalClosed := st.totalClosed + k, closeCalls := cc }
          if attempt < maxRetries - 1 then
            match listSessionsSync (listProc st.listCalls) with
            | .error e => .error e
            | .ok _ =>
              closeAllGoSync listProc closeProc maxRetries fuel (attempt + 1)
                { st with listCalls := st.listCalls + 1 }
          else closeAllGoSync listProc closeProc maxRetries fuel (attempt + 1) st

/-- Model of the static `AgentBrowser.close_all_sessions` at its default
`max_retries` of two attempts. -/
def closeAllSessionsSync (listProc : Nat → ProcResult) (closeProc : Nat → ProcResult) :
    Except PyErr SweepState :=
  closeAllGoSync listProc closeProc 2 2 0 ⟨0, 0, 0⟩

/-- The per-session loop of the asynchronous `close_all_sessions`: it
catches every exception, so it is total. -/
def closeRoundAsync (closeProc : Nat → ProcResult) :
    List String → Nat → Nat → Nat × Nat
  | [], cc, k => (k, cc)
  | s :: ss, cc, k =>
    match runAsync { session := some s } ["close"] false true (closeProc cc) with
    | .ok _ => closeRoundAsync closeProc ss (cc + 1) (k + 1)
    | .error _ => closeRoundAsync closeProc ss (cc + 1) k

/-- The retry loop of the asynchronous `close_all_sessions`
(`for attempt in range(max_retries + 1)`, no extra listing before the
sleep). -/
def closeAllGoAsync (listProc : Nat → ProcResult) (closeProc : Nat → ProcResult) :
    Nat → SweepState → Except PyErr SweepState
  | 0, st => .ok st
  | fuel + 1, st =>
    match listSessionsAsync (listProc st.listCalls) with
    | .error e => .error e
    | .ok v =>
      let st := { st with listCalls := st.listCalls + 1 }
      let sessions := jvalSessions v
      if sessions = [] then .ok st
      else
        let p := closeRoundAsync closeProc sessions st.closeCalls 0
        closeAllGoAsync listProc closeProc fuel
          { st with totalClosed := st.totalClosed + p.1, closeCalls := p.2 }

/-- Model of the static `AsyncAgentBrowser.close_all_sessions` at its
default `max_retries` of two, hence up to three rounds. -/
def closeAllSessionsAsync (listProc : Nat → ProcResult) (closeProc : Nat → ProcResult) :
    Except PyErr SweepState :=
  closeAllGoAsync listProc closeProc (2 + 1) ⟨0, 0, 0⟩

/-- Number of queued commands requesting structured output. -/
def jsonCount (cs : List Cmd) : Nat := (cs.filter (fun c => c.jsonOutput)).length

/-- A shell-safe token: nonempty and free of double quotes, tabs and
newlines (spaces are allowed, since a token containing one gets quoted). -/
def ShellSafe (t : List Char) : Prop :=
  t ≠ [] ∧ ∀ c ∈ t, c ≠ '"' ∧ c ≠ '\t' ∧ c ≠ '\n'

instance (t : List Char) : Decidable (ShellSafe t) := by
  unfold ShellSafe; infer_instance

/-- Success envelope carrying a page title, used as a concrete batch
output below. -/
def envTitle : String := "\x7b\"success\": true, \"data\": \x7b\"title\": \"T\"\x7d\x7d"

/-- Failure envelope carrying an error message, used as a concrete batch
output below. -/
def envFail : String := "\x7b\"success\": false, \"error\": \"boom\"\x7d"

/-- Whether a captured stdout would decode to a dict or fail to decode —
the shapes for which the synchronous `_run` stays inside its own error
kind. -/
def objOrUndecodable (out : String) : Bool :=
  match jsonParse out with
  | some (.obj _) => true
  | none => true
  | some _ => false

/-! ## Supporting lemmas -/

/-- The assignment loop never changes the length of the result list. -/
theorem setSlots_length (is : List Nat) (rs : List JVal) (res : List JVal) :
    (setSlots res is rs).length = res.length := by
  induction is generalizing res rs with
  | nil => cases rs <;> rfl
  | cons i is ih =>
    cases rs with
    | nil => rfl
    | cons r rs => simpa [setSlots] using ih rs (res.set i r)

/-- A successful synchronous parse yields one slot per queued command. -/
theorem parseBatchResults_ok_length (out : String) (ji : List Nat) (total : Nat)
    (r : List JVal) (h : parseBatchResults out ji total = .ok r) : r.length = total := by
  unfold parseBatchResults at h
  cases hc : collectJsonResults (splitLines out) with
  | error e => rw [hc] at h; cases h
  | ok jr =>
    rw [hc] at h
    cases h
    simp [setSlots_length]

/-- The asynchronous loop classifies a line as skippable exactly when the
line is empty. -/
theorem classifyLineAsync_skip_iff (l : String) :
    classifyLineAsync l = .skip ↔ l = "" := by
  unfold classifyLineAsync
  by_cases h : l = ""
  · simp [h]
  · simp only [if_neg h]
    cases hj : jsonParse l with
    | none => simp [h]
    | some d =>
      by_cases ho : isObj d ∧ hasKey d "success"
      · by_cases hs : truthy (jget d "success") = true
        · simp [ho, hs, h]
        · simp [ho, hs, h]
      · simp [ho, h]

/-- A successful asynchronous parse yields one entry per non-empty line. -/
theorem parseAsyncLines_ok_length (ls : List String) (r : List JVal)
    (h : parseAsyncLines ls = .ok r) :
    r.length = (ls.filter (fun l => l ≠ "")).length := by
  induction ls generalizing r with
  | nil => cases h; rfl
  | cons l ls ih =>
    unfold parseAsyncLines at h
    cases hc : classifyLineAsync l with
    | skip =>
      rw [hc] at h
      have hl : l = "" := (classifyLineAsync_skip_iff l).mp hc
      simpa [hl] using ih r h
    | fail e => rw [hc] at h; cases h
    | ok v =>
      rw [hc] at h
      cases hr : parseAsyncLines ls with
      | error e => rw [hr] at h; cases h
      | ok vs =>
        rw [hr] at h
        cases h
        have hl : ¬ l = "" := by
          intro hl
          rw [(classifyLineAsync_skip_iff l).mpr hl] at hc
          cases hc
        simpa [hl] using ih vs hr

/-- A failing envelope among the lines makes the synchronous collection
abort with some failing line's error payload. -/
theorem collectJsonResults_fail (ls : List String)
    (h : ∃ l ∈ ls, ∃ e, classifyLineSync l = .fail e) :
    ∃ e, collectJsonResults ls = .error e ∧
      ∃ l ∈ ls, classifyLineSync l = .fail e := by
  induction ls with
  | nil => obtain ⟨l, hl, _⟩ := h; cases hl
  | cons l ls ih =>
    cases hc : classifyLineSync l with
    | fail e =>
      exact ⟨e, by simp [collectJsonResults, hc], l, List.mem_cons_self l ls, hc⟩
    | skip =>
      obtain ⟨l', hl', e', he'⟩ := h
      rcases List.mem_cons.mp hl' with h1 | h1
      · subst h1; rw [hc] at he'; cases he'
      · obtain ⟨e, h1, l'', h2, h3⟩ := ih ⟨l', h1, e', he'⟩
        exact ⟨e, by simp [collectJsonResults, hc, h1], l'', List.mem_cons_of_mem l h2, h3⟩
    | ok d =>
      obtain ⟨l', hl', e', he'⟩ := h
      rcases List.mem_cons.mp hl' with h1 | h1
      · subst h1; rw [hc] at he'; cases he'
      · obtain ⟨e, h1, l'', h2, h3⟩ := ih ⟨l', h1, e', he'⟩
        exact ⟨e, by simp [collectJsonResults, hc, h1], l'', List.mem_cons_of_mem l h2, h3⟩

/-- Setting a slot leaves the other positions unchanged. -/
theorem getq_set_ne (l : List JVal) (i j : Nat) (a : JVal) (h : i ≠ j) :
    (l.set i a).get? j = l.get? j := by
  induction l generalizing i j with
  | nil => rfl
  | cons x xs ih =>
    cases i with
    | zero => cases j with
      | zero => exact absurd rfl h
      | succ j => rfl
    | succ i => cases j with
      | zero => rfl
      | succ j => simpa [List.set] using ih i j (by omega)

/-- Setting an in-range slot stores the value there. -/
theorem getq_set_self (l : List JVal) (i : Nat) (a : JVal) (h : i < l.length) :
    (l.set i a).get? i = some a := by
  induction l generalizing i with
  | nil => cases h
  | cons x xs ih =>
    cases i with
    | zero => rfl
    | succ i => simpa [List.set] using ih i (by simpa using h)

/-- Slots below every assigned index are untouched by the assignment loop. -/
theorem setSlots_get_lt (is : List Nat) (rs res : List JVal) (j : Nat)
    (h : ∀ i ∈ is, j < i) : (setSlots res is rs).get? j = res.get? j := by
  induction is generalizing res rs with
  | nil => cases rs <;> rfl
  | cons i is ih =>
    cases rs with
    | nil => rfl
    | cons r rs =>
      have hj : j < i := h i (List.mem_cons_self i is)
      calc (setSlots (res.set i r) is rs).get? j
          = (res.set i r).get? j := ih rs (res.set i r) (fun x hx => h x (List.mem_cons_of_mem i hx))
        _ = res.get? j := getq_set_ne res i j r (by omega)

/-- The assignment loop writes the k-th payload into the k-th assigned
index, provided the indices are strictly increasing and in range. -/
theorem setSlots_get (is : List Nat) (rs res : List JVal) (k i : Nat)
    (hp : is.Pairwise (· < ·)) (hb : ∀ x ∈ is, x < res.length)
    (hk : is.get? k = some i) (hr : k < rs.length) :
    (setSlots res is rs).get? i = rs.get? k := by
  induction is generalizing res rs k with
  | nil => cases hk
  | cons i0 is ih =>
    cases rs with
    | nil => cases hr
    | cons r rs =>
      cases k with
      | zero =>
        cases hk
        have hgt : ∀ x ∈ is, i < x := (List.pairwise_cons.mp hp).1
        calc (setSlots (res.set i r) is rs).get? i
            = (res.set i r).get? i := setSlots_get_lt is rs (res.set i r) i hgt
          _ = some r := getq_set_self res i r (hb i (List.mem_cons_self i is))
      | succ k =>
        exact ih rs (res.set i0 r) k ((List.pairwise_cons.mp hp).2)
          (fun x hx => by
            have := hb x (List.mem_cons_of_mem i0 hx)
            simpa [List.length_set] using this)
          hk (by simpa using hr)

/-- Unfolding equation of the index collection on a nonempty queue. -/
theorem jsonIndicesFrom_cons (c : Cmd) (cs : List Cmd) (s : Nat) :
    jsonIndicesFrom s (c :: cs) =
      if c.jsonOutput then s :: jsonIndicesFrom (s + 1) cs
      else jsonIndicesFrom (s + 1) cs := rfl

/-- Every collected structured-output index is at least the start value. -/
theorem jsonIndicesFrom_ge (cs : List Cmd) (s : Nat) :
    ∀ i ∈ jsonIndicesFrom s cs, s ≤ i := by
  induction cs generalizing s with
  | nil => intro i hi; cases hi
  | cons c cs ih =>
    intro i hi
    rw [jsonIndicesFrom_cons] at hi
    by_cases hc : c.jsonOutput = true
    · rw [if_pos hc] at hi
      rcases List.mem_cons.mp hi with h | h
      · omega
      · have := ih (s + 1) i h; omega
    · rw [if_neg hc] at hi
      have := ih (s + 1) i hi; omega

/-- Every collected structured-output index is below `start + length`. -/
theorem jsonIndicesFrom_lt (cs : List Cmd) (s : Nat) :
    ∀ i ∈ jsonIndicesFrom s cs, i < s + cs.length := by
  induction cs generalizing s with
  | nil => intro i hi; cases hi
  | cons c cs ih =>
    intro i hi
    rw [jsonIndicesFrom_cons] at hi
    have hlen : (c :: cs).length = cs.length + 1 := by simp
    by_cases hc : c.jsonOutput = true
    · rw [if_pos hc] at hi
      rcases List.mem_cons.mp hi with h | h
      · omega
      · have := ih (s + 1) i h; omega
    · rw [if_neg hc] at hi
      have := ih (s + 1) i hi; omega

/-- The collected structured-output indices are strictly increasing. -/
theorem jsonIndicesFrom_pairwise (cs : List Cmd) (s : Nat) :
    (jsonIndicesFrom s cs).Pairwise (· < ·) := by
  induction cs generalizing s with
  | nil => exact List.Pairwise.nil
  | cons c cs ih =>
    rw [jsonIndicesFrom_cons]
    by_cases hc : c.jsonOutput = true
    · rw [if_pos hc]
      exact List.pairwise_cons.mpr
        ⟨fun x hx => by have := jsonIndicesFrom_ge cs (s + 1) x hx; omega, ih (s + 1)⟩
    · rw [if_neg hc]; exact ih (s + 1)

/-- Splitting the index collection at a queue position. -/
theorem jsonIndicesFrom_append (xs ys : List Cmd) (s : Nat) :
    jsonIndicesFrom s (xs ++ ys) =
      jsonIndicesFrom s xs ++ jsonIndicesFrom (s + xs.length) ys := by
  induction xs generalizing s with
  | nil => simp [jsonIndicesFrom]
  | cons c cs ih =>
    have harith : s + 1 + cs.length = s + (cs.length + 1) := by omega
    by_cases hc : c.jsonOutput = true
    · simp [List.cons_append, jsonIndicesFrom_cons, hc, ih (s + 1), harith]
    · simp [List.cons_append, jsonIndicesFrom_cons, hc, ih (s + 1), harith]

/-- One collected index per structured-output command. -/
theorem jsonIndicesFrom_length (cs : List Cmd) (s : Nat) :
    (jsonIndicesFrom s cs).length = jsonCount cs := by
  induction cs generalizing s with
  | nil => rfl
  | cons c cs ih =>
    rw [jsonIndicesFrom_cons]
    by_cases hc : c.jsonOutput = true
    · simp [hc, ih (s + 1), jsonCount, List.filter]
    · simp [hc, ih (s + 1), jsonCount, List.filter]

/-- Looking up the position right after the left part of an append. -/
theorem getq_append_len (A : List Nat) (x : Nat) (B : List Nat) :
    (A ++ x :: B).get? A.length = some x := by
  induction A with
  | nil => rfl
  | cons a A ih => simpa using ih

/-- Unfolding equation of word splitting on a nonempty line. -/
theorem shSplit_cons (c : Char) (cs : List Char) (inQ : Bool) (cur : Option (List Char)) :
    shSplit (c :: cs) inQ cur =
      if c = '"' then shSplit cs (!inQ) (some (cur.getD []))
      else if isIfs c ∧ inQ = false then
        match cur with
        | none => shSplit cs false none
        | some t => (shSplit cs false none).map (t :: ·)
      else shSplit cs inQ (some (cur.getD [] ++ [c])) := by
  cases inQ <;> cases cur <;> rfl

/-- Word splitting walks over a run of ordinary characters by accumulating
them into the current word. -/
theorem shSplit_plain (t : List Char) (cs : List Char) (cur : Option (List Char))
    (h : ∀ c ∈ t, ¬(c = '"') ∧ isIfs c = false) :
    shSplit (t ++ cs) false cur =
      shSplit cs false (if t.isEmpty then cur else some (cur.getD [] ++ t)) := by
  induction t generalizing cur with
  | nil => simp
  | cons c t ih =>
    have hc := h c (List.mem_cons_self c t)
    have hrest : ∀ x ∈ t, ¬(x = '"') ∧ isIfs x = false :=
      fun x hx => h x (List.mem_cons_of_mem c hx)
    have step : shSplit ((c :: t) ++ cs) false cur =
        shSplit (t ++ cs) false (some (cur.getD [] ++ [c])) := by
      simp only [List.cons_append]
      rw [shSplit_cons]
      simp [hc.1, hc.2]
    rw [step, ih (some (cur.getD [] ++ [c])) hrest]
    cases t with
    | nil => simp
    | cons d t => simp

/-- Word splitting inside double quotes accumulates every non-quote
character literally. -/
theorem shSplit_quoted_body (t : List Char) (cs : List Char) (acc : List Char)
    (h : ∀ c ∈ t, ¬(c = '"')) :
    shSplit (t ++ cs) true (some acc) = shSplit cs true (some (acc ++ t)) := by
  induction t generalizing acc with
  | nil => simp
  | cons c t ih =>
    have hc := h c (List.mem_cons_self c t)
    have hrest : ∀ x ∈ t, ¬(x = '"') := fun x hx => h x (List.mem_cons_of_mem c hx)
    have step : shSplit ((c :: t) ++ cs) true (some acc) =
        shSplit (t ++ cs) true (some (acc ++ [c])) := by
      simp only [List.cons_append]
      rw [shSplit_cons]
      simp [hc]
    rw [step, ih (acc ++ [c]) hrest]
    simp

/-- A double-quoted token contributes its body to the current word. -/
theorem shSplit_quoted (t : List Char) (cs : List Char) (cur : Option (List Char))
    (h : ∀ c ∈ t, ¬(c = '"')) :
    shSplit (('"' :: t ++ ['"']) ++ cs) false cur =
      shSplit cs false (some (cur.getD [] ++ t)) := by
  have step1 : shSplit (('"' :: t ++ ['"']) ++ cs) false cur =
      shSplit ((t ++ ['"']) ++ cs) true (some (cur.getD [])) := by
    simp only [List.cons_append]
    rw [shSplit_cons]
    simp
  rw [step1]
  have step2 : (t ++ ['"']) ++ cs = t ++ ('"' :: cs) := by simp
  rw [step2, shSplit_quoted_body t ('"' :: cs) (cur.getD []) h]
  rw [shSplit_cons]
  simp

/-- A rendered synchronous token extends the current word by exactly the
original token. -/
theorem renderTokSync_step (t : List Char) (cs : List Char) (cur : Option (List Char))
    (h : ShellSafe t) :
    shSplit (renderTokSyncL t ++ cs) false cur =
      shSplit cs false (some (cur.getD [] ++ t)) := by
  unfold renderTokSyncL
  by_cases hsp : ' ' ∈ t
  · rw [if_pos hsp]
    exact shSplit_quoted t cs cur (fun c hc => (h.2 c hc).1)
  · rw [if_neg hsp]
    have hplain : ∀ c ∈ t, ¬(c = '"') ∧ isIfs c = false := by
      intro c hc
      obtain ⟨h1, h2, h3⟩ := h.2 c hc
      refine ⟨h1, ?_⟩
      have hcs : ¬(c = ' ') := fun he => hsp (he ▸ hc)
      simp [isIfs, hcs, h2, h3]
    rw [shSplit_plain t cs cur hplain]
    have : t.isEmpty = false := by
      cases t with
      | nil => exact absurd rfl h.1
      | cons a b => rfl
    simp [this]

/-- A rendered asynchronous token extends the current word by exactly the
original token. -/
theorem renderTokAsync_step (t : List Char) (cs : List Char) (cur : Option (List Char))
    (h : ∀ c ∈ t, ¬(c = '"')) :
    shSplit (renderTokAsyncL t ++ cs) false cur =
      shSplit cs false (some (cur.getD [] ++ t)) := by
  unfold renderTokAsyncL
  exact shSplit_quoted t cs cur h

/-- A failing envelope among the lines makes the asynchronous loop raise
some failing line's error payload. -/
theorem parseAsyncLines_fail (ls : List String)
    (h : ∃ l ∈ ls, ∃ e, classifyLineAsync l = .fail e) :
    ∃ e, parseAsyncLines ls = .error (.agentBrowserError e) ∧
      ∃ l ∈ ls, classifyLineAsync l = .fail e := by
  induction ls with
  | nil => obtain ⟨l, hl, _⟩ := h; cases hl
  | cons l ls ih =>
    cases hc : classifyLineAsync l with
    | fail e =>
      exact ⟨e, by simp [parseAsyncLines, hc], l, List.mem_cons_self l ls, hc⟩
    | skip =>
      obtain ⟨l', hl', e', he'⟩ := h
      rcases List.mem_cons.mp hl' with h1 | h1
      · subst h1; rw [hc] at he'; cases he'
      · obtain ⟨e, h1, l'', h2, h3⟩ := ih ⟨l', h1, e', he'⟩
        exact ⟨e, by simp [parseAsyncLines, hc, h1], l'', List.mem_cons_of_mem l h2, h3⟩
    | ok d =>
      obtain ⟨l', hl', e', he'⟩ := h
      rcases List.mem_cons.mp hl' with h1 | h1
      · subst h1; rw [hc] at he'; cases he'
      · obtain ⟨e, h1, l'', h2, h3⟩ := ih ⟨l', h1, e', he'⟩
        exact ⟨e, by simp [parseAsyncLines, hc, h1], l'', List.mem_cons_of_mem l h2, h3⟩

/-- Round-trip of a whole rendered synchronous script line through shell
word splitting, for shell-safe tokens. -/
theorem shellWords_renderLineSync (parts : List (List Char))
    (h : ∀ t ∈ parts, ShellSafe t) :
    shellWords (renderLineSyncL parts) = some parts := by
  induction parts with
  | nil => rfl
  | cons t ts ih =>
    cases ts with
    | nil =>
      have ht := h t (List.mem_cons_self t [])
      unfold shellWords renderLineSyncL renderLineWith
      rw [show renderTokSyncL t = renderTokSyncL t ++ [] by simp]
      rw [renderTokSync_step t [] none ht]
      rfl
    | cons t' ts' =>
      have ht := h t (List.mem_cons_self t (t' :: ts'))
      have hrest : ∀ x ∈ t' :: ts', ShellSafe x :=
        fun x hx => h x (List.mem_cons_of_mem t hx)
      unfold shellWords renderLineSyncL renderLineWith
      rw [show renderTokSyncL t ++ ' ' :: renderLineWith renderTokSyncL (t' :: ts') =
            renderTokSyncL t ++ (' ' :: renderLineWith renderTokSyncL (t' :: ts')) from rfl]
      rw [renderTokSync_step t (' ' :: renderLineWith renderTokSyncL (t' :: ts')) none ht]
      rw [shSplit_cons]
      have hsp : ¬((' ' : Char) = '"') := by decide
      simp only [hsp, if_false, isIfs, if_pos]
      have := ih hrest
      unfold shellWords renderLineSyncL at this
      simp [this]

/-- Round-trip of a whole rendered asynchronous script line through shell
word splitting, for shell-safe tokens. -/
theorem shellWords_renderLineAsync (parts : List (List Char))
    (h : ∀ t ∈ parts, ShellSafe t) :
    shellWords (renderLineAsyncL parts) = some parts := by
  induction parts with
  | nil => rfl
  | cons t ts ih =>
    cases ts with
    | nil =>
      have ht := h t (List.mem_cons_self t [])
      unfold shellWords renderLineAsyncL renderLineWith
      rw [show renderTokAsyncL t = renderTokAsyncL t ++ [] by simp]
      rw [renderTokAsync_step t [] none (fun c hc => (ht.2 c hc).1)]
      rfl
    | cons t' ts' =>
      have ht := h t (List.mem_cons_self t (t' :: ts'))
      have hrest : ∀ x ∈ t' :: ts', ShellSafe x :=
        fun x hx => h x (List.mem_cons_of_mem t hx)
      unfold shellWords renderLineAsyncL renderLineWith
      rw [show renderTokAsyncL t ++ ' ' :: renderLineWith renderTokAsyncL (t' :: ts') =
            renderTokAsyncL t ++ (' ' :: renderLineWith renderTokAsyncL (t' :: ts')) from rfl]
      rw [renderTokAsync_step t (' ' :: renderLineWith renderTokAsyncL (t' :: ts')) none
        (fun c hc => (ht.2 c hc).1)]
      rw [shSplit_cons]
      have hsp : ¬((' ' : Char) = '"') := by decide
      simp only [hsp, if_false, isIfs, if_pos]
      have := ih hrest
      unfold shellWords renderLineAsyncL at this
      simp [this]

/-! ## Claims -/

/-- C1 (amended).  A successful synchronous batch execution returns a
result list of exactly one slot per queued command; a successful
asynchronous batch execution instead returns one entry per non-empty
captured output line, which need not equal the queue length.  Failure in
either path yields an error, never a partial list. -/
theorem c1_batch_result_length (b : Browser) (cmds : List Cmd) (out err : String) (u : Bool) :
    (∀ r, (executeBatchSync b cmds (.done 0 out err) u).result = .ok r →
      r.length = cmds.length) ∧
    (∀ r, (executeBatchAsync b cmds (.done 0 out err) u).result = .ok r →
      r.length = ((asyncLines out).filter (fun l => l ≠ "")).length) := by
  constructor
  · intro r h
    by_cases hc : cmds = []
    · subst hc
      simp only [executeBatchSync, if_pos rfl] at h
      cases h
      rfl
    · simp only [executeBatchSync, if_neg hc] at h
      cases u with
      | false => cases h
      | true =>
        simp only [if_pos rfl] at h
        rw [if_neg (by omega : ¬((0 : Int) ≠ 0))] at h
        exact parseBatchResults_ok_length out (jsonIndicesOf cmds) cmds.length r h
  · intro r h
    simp only [executeBatchAsync] at h
    rw [if_neg (by omega : ¬((0 : Int) ≠ 0))] at h
    exact parseAsyncLines_ok_length (asyncLines out) r h

/-- C1 counterexample: a one-command asynchronous batch whose command
produces no output returns an empty result list, so the claimed
`len(results) == len(commands)` invariant fails on the asynchronous path. -/
theorem c1_counterexample :
    (executeBatchAsync defaultBrowser [clickCmd "#a"] (.done 0 "" "") true).result
      = .ok ([] : List JVal) ∧
    ([] : List JVal).length ≠ [clickCmd "#a"].length := ⟨rfl, by decide⟩

/-- C1 witness: a concrete two-command batch where the synchronous result
has two slots and the asynchronous result has one entry for the single
output line. -/
theorem c1_witness :
    ([JVal.null, JVal.obj [("title", JVal.str "T")]].length
      = [clickCmd "#a", getTitleCmd].length) ∧
    ([JVal.obj [("title", JVal.str "T")]].length
      = ((asyncLines envTitle).filter (fun l => l ≠ "")).length) := by
  constructor
  · exact (c1_batch_result_length defaultBrowser [clickCmd "#a", getTitleCmd]
      envTitle "" true).1 _ rfl
  · exact (c1_batch_result_length defaultBrowser [clickCmd "#a", getTitleCmd]
      envTitle "" true).2 _ rfl

/-- C2.  If any captured line classifies as a `success: false` envelope,
both result-reconstruction paths abort with an error carrying a failing
envelope's error payload, and no results list is produced. -/
theorem c2_fail_envelope_aborts (out : String) (ji : List Nat) (total : Nat) :
    ((∃ l ∈ splitLines out, ∃ e, classifyLineSync l = .fail e) →
      ∃ e, parseBatchResults out ji total = .error (.agentBrowserError e) ∧
        ∃ l ∈ splitLines out, classifyLineSync l = .fail e) ∧
    ((∃ l ∈ asyncLines out, ∃ e, classifyLineAsync l = .fail e) →
      ∃ e, parseAsyncBatch out = .error (.agentBrowserError e) ∧
        ∃ l ∈ asyncLines out, classifyLineAsync l = .fail e) := by
  constructor
  · intro h
    obtain ⟨e, h1, hl⟩ := collectJsonResults_fail (splitLines out) h
    exact ⟨e, by simp [parseBatchResults, h1], hl⟩
  · intro h
    obtain ⟨e, h1, hl⟩ := parseAsyncLines_fail (asyncLines out) h
    exact ⟨e, h1, hl⟩

/-- C2 witness: a concrete failing envelope makes both paths raise. -/
theorem c2_witness :
    (∃ e, parseBatchResults envFail [0] 1 = .error (.agentBrowserError e) ∧
      ∃ l ∈ splitLines envFail, classifyLineSync l = .fail e) ∧
    (∃ e, parseAsyncBatch envFail = .error (.agentBrowserError e) ∧
      ∃ l ∈ asyncLines envFail, classifyLineAsync l = .fail e) := by
  constructor
  · exact (c2_fail_envelope_aborts envFail [0] 1).1
      ⟨envFail, by rw [show splitLines envFail = [envFail] from rfl]; simp,
        JVal.str "boom", rfl⟩
  · exact (c2_fail_envelope_aborts envFail [0] 1).2
      ⟨envFail, by rw [show asyncLines envFail = [envFail] from rfl]; simp,
        JVal.str "boom", rfl⟩

/-- C3.  Both batch contexts trigger execution on scope exit exactly when
the queue is nonempty and no exception is active: otherwise zero external
invocations are performed, and in the triggering case exactly one
subprocess is run. -/
theorem c3_exit_triggers_iff (b : Browser) (cmds : List Cmd) (exc : Option String)
    (proc : ProcResult) (u : Bool) :
    ((cmds = [] ∨ exc ≠ none) →
      batchExitCallsSync b cmds exc proc u = 0 ∧
      batchExitCallsAsync b cmds exc proc u = 0) ∧
    (cmds ≠ [] → exc = none →
      batchExitCallsSync b cmds exc proc u = 1 ∧
      batchExitCallsAsync b cmds exc proc u = 1) := by
  constructor
  · intro h
    have hg : ¬(cmds ≠ [] ∧ exc = none) := by tauto
    simp [batchExitCallsSync, batchExitCallsAsync, hg]
  · intro h1 h2
    subst h2
    simp [batchExitCallsSync, batchExitCallsAsync, h1, executeBatchSync, executeBatchAsync]

/-- C3 witness: an empty queue and an errored scope perform zero
invocations, a nonempty clean exit performs one. -/
theorem c3_witness :
    (batchExitCallsSync defaultBrowser [] none (.done 0 "" "") true = 0 ∧
     batchExitCallsAsync defaultBrowser [] none (.done 0 "" "") true = 0) ∧
    (batchExitCallsSync defaultBrowser [clickCmd "#a"] (some "ValueError")
        (.done 0 "" "") true = 0 ∧
     batchExitCallsAsync defaultBrowser [clickCmd "#a"] (some "ValueError")
        (.done 0 "" "") true = 0) ∧
    (batchExitCallsSync defaultBrowser [clickCmd "#a"] none (.done 0 "" "") true = 1 ∧
     batchExitCallsAsync defaultBrowser [clickCmd "#a"] none (.done 0 "" "") true = 1) := by
  refine ⟨?_, ?_, ?_⟩
  · exact (c3_exit_triggers_iff defaultBrowser [] none (.done 0 "" "") true).1 (Or.inl rfl)
  · exact (c3_exit_triggers_iff defaultBrowser [clickCmd "#a"] (some "ValueError")
      (.done 0 "" "") true).1 (Or.inr (by simp))
  · exact (c3_exit_triggers_iff defaultBrowser [clickCmd "#a"] none
      (.done 0 "" "") true).2 (by simp) rfl

/-- C4 (amended).  Rendered script lines round-trip through shell word
splitting for shell-safe tokens: nonempty tokens free of double quotes,
tabs and newlines (and, in a real shell, of expansion metacharacters,
which the word-splitting model does not interpret).  Tokens containing a
space are protected by quoting in both renderers. -/
theorem c4_quoting_roundtrip (parts : List (List Char))
    (h : ∀ t ∈ parts, ShellSafe t) :
    shellWords (renderLineSyncL parts) = some parts ∧
    shellWords (renderLineAsyncL parts) = some parts :=
  ⟨shellWords_renderLineSync parts h, shellWords_renderLineAsync parts h⟩

/-- C4 counterexample: a queued `fill` whose text argument contains a tab
is rendered unquoted by the synchronous renderer (only the space character
triggers quoting), so shell word splitting breaks the token in two and the
original token list is not recovered. -/
theorem c4_counterexample :
    shellWords (renderLineSyncL ((translateCmdSync defaultBrowser
        (fillCmd "#in" "a\tb")).map String.data)) =
      some ["agent-browser".data, "fill".data, "#in".data, "a".data, "b".data] ∧
    (["agent-browser".data, "fill".data, "#in".data, "a".data, "b".data] :
        List (List Char))
      ≠ (translateCmdSync defaultBrowser (fillCmd "#in" "a\tb")).map String.data := by
  refine ⟨rfl, ?_⟩
  decide

/-- C4 witness: a built `fill` invocation whose text contains a space
round-trips through both renderers. -/
theorem c4_witness :
    shellWords (renderLineSyncL ((translateCmdSync defaultBrowser
        (fillCmd "#in" "hello world")).map String.data)) =
      some ((translateCmdSync defaultBrowser (fillCmd "#in" "hello world")).map
        String.data) ∧
    shellWords (renderLineAsyncL ((translateCmdAsync defaultBrowser
        (fillCmd "#in" "hello world")).map String.data)) =
      some ((translateCmdAsync defaultBrowser (fillCmd "#in" "hello world")).map
        String.data) := by
  constructor
  · exact (c4_quoting_roundtrip _ (by decide)).1
  · exact (c4_quoting_roundtrip _ (by decide)).2

/-- C5 (amended).  The asynchronous `_run` normalizes every failure —
spawn error, nonzero exit, undecodable envelope, missing fields and
`success: false` — into the single `AgentBrowserError` kind.  The
synchronous `_run` does so for every failure of a completed process whose
output is a dict or undecodable, but a spawn failure (and a decodable
non-dict output) escapes as a built-in exception instead. -/
theorem c5_error_normalization (b : Browser) (args : List String) (jo chk : Bool)
    (proc : ProcResult) :
    (∀ e, runAsync b args jo chk proc = .error e → isABE e = true) ∧
    (∀ rc out err e, objOrUndecodable out = true →
      runSync b args jo chk (.done rc out err) = .error e → isABE e = true) := by
  constructor
  · intro e h
    cases proc with
    | launchFail m =>
      simp only [runAsync] at h
      cases h; rfl
    | done rc out err =>
      simp only [runAsync] at h
      split at h
      · cases h; rfl
      · split at h
        · cases hj : jsonParse (pyStrip out) with
          | none => rw [hj] at h; cases h; rfl
          | some d =>
            simp only [hj] at h
            by_cases ho : isObj d = true
            · rw [if_pos ho] at h
              by_cases hs : truthy (jget d "success") = true
              · rw [if_pos hs] at h; cases h
              · rw [if_neg hs] at h; cases h; rfl
            · rw [if_neg ho] at h; cases h; rfl
        · split at h
          · cases h
          · cases h
  · intro rc out err e hobj h
    simp only [runSync] at h
    split at h
    · cases h; rfl
    · split at h
      · cases hj : jsonParse out with
        | none => rw [hj] at h; cases h; rfl
        | some d =>
          simp only [hj] at h
          cases d with
          | obj fs =>
            rw [if_pos (show isObj (JVal.obj fs) = true from rfl)] at h
            by_cases hs : truthy (jget (JVal.obj fs) "success") = true
            · rw [if_pos hs] at h; cases h
            · rw [if_neg hs] at h; cases h; rfl
          | null => unfold objOrUndecodable at hobj; rw [hj] at hobj; cases hobj
          | bool bv => unfold objOrUndecodable at hobj; rw [hj] at hobj; cases hobj
          | num nv => unfold objOrUndecodable at hobj; rw [hj] at hobj; cases hobj
          | str sv => unfold objOrUndecodable at hobj; rw [hj] at hobj; cases hobj
          | arr av => unfold objOrUndecodable at hobj; rw [hj] at hobj; cases hobj
      · split at h
        · cases h
        · cases h

/-- C5 counterexample: in the synchronous path a process-launch failure
(binary not found) escapes as the uncaught built-in exception, not as the
normalized `AgentBrowserError` kind. -/
theorem c5_counterexample :
    runSync defaultBrowser ["open", "http://x"] false true
        (.launchFail "No such file or directory") =
      .error (.osError "No such file or directory") ∧
    isABE (.osError "No such file or directory") = false := ⟨rfl, rfl⟩

/-- C5 witness: a nonzero exit of a completed process is normalized by the
synchronous runner. -/
theorem c5_witness :
    objOrUndecodable "" = true ∧
    isABE (.agentBrowserError (.str "Command failed: err")) = true := by
  refine ⟨rfl, ?_⟩
  exact (c5_error_normalization defaultBrowser ["close"] false true
    (.done 1 "" "err")).2 1 "" "err" _ rfl rfl

/-- C6 (amended).  For a nonempty queue both batch executors create the
temporary script and attempt its removal on every exit path; the
asynchronous cleanup swallows a failing unlink (the result is independent
of the unlink outcome), while the synchronous `finally` lets the unlink
error propagate. -/
theorem c6_temp_file_cleanup (b : Browser) (cmds : List Cmd) (proc : ProcResult)
    (u : Bool) (h : cmds ≠ []) :
    (executeBatchSync b cmds proc u).tempFileCreated = true ∧
    (executeBatchSync b cmds proc u).unlinkAttempted = true ∧
    (executeBatchAsync b cmds proc u).tempFileCreated = true ∧
    (executeBatchAsync b cmds proc u).unlinkAttempted = true ∧
    (executeBatchAsync b cmds proc false).result
      = (executeBatchAsync b cmds proc true).result := by
  refine ⟨?_, ?_, rfl, rfl, rfl⟩ <;> simp [executeBatchSync, h]

/-- C6 counterexample: a synchronous batch whose execution succeeded but
whose cleanup unlink fails raises the unlink error instead of returning
the results — cleanup errors are not swallowed on the synchronous path. -/
theorem c6_counterexample :
    (executeBatchSync defaultBrowser [clickCmd "#a"] (.done 0 "" "") true).result
      = .ok [JVal.null] ∧
    (executeBatchSync defaultBrowser [clickCmd "#a"] (.done 0 "" "") false).result
      = .error (.osError "unlink failed") := ⟨rfl, rfl⟩

/-- C6 witness: the cleanup facts at a concrete one-command batch. -/
theorem c6_witness :
    (executeBatchSync defaultBrowser [clickCmd "#a"] (.done 0 "" "") true).tempFileCreated
      = true ∧
    (executeBatchSync defaultBrowser [clickCmd "#a"] (.done 0 "" "") true).unlinkAttempted
      = true ∧
    (executeBatchAsync defaultBrowser [clickCmd "#a"] (.done 0 "" "") true).tempFileCreated
      = true ∧
    (executeBatchAsync defaultBrowser [clickCmd "#a"] (.done 0 "" "") true).unlinkAttempted
      = true ∧
    (executeBatchAsync defaultBrowser [clickCmd "#a"] (.done 0 "" "") false).result
      = (executeBatchAsync defaultBrowser [clickCmd "#a"] (.done 0 "" "") true).result :=
  c6_temp_file_cleanup defaultBrowser [clickCmd "#a"] (.done 0 "" "") true (by simp)

/-- C7 (amended).  In the synchronous parser, the slot at the queue
position of a queued `get "title"` command holds the data payload of the
corresponding success envelope — the one whose rank among the envelope
lines equals the command's rank among the structured-output commands —
whenever the batch parse succeeds with enough envelopes.  (The
asynchronous parser aligns results with output lines, not queue
positions; see the counterexample.) -/
theorem c7_title_slot_alignment (pre post : List Cmd) (out : String) (jr : List JVal)
    (hc : collectJsonResults (splitLines out) = .ok jr)
    (hk : jsonCount pre < jr.length) :
    ∃ r, parseBatchResults out (jsonIndicesOf (pre ++ getTitleCmd :: post))
        (pre ++ getTitleCmd :: post).length = .ok r ∧
      r.get? pre.length = jr.get? (jsonCount pre) := by
  refine ⟨setSlots (List.replicate (pre ++ getTitleCmd :: post).length JVal.null)
      (jsonIndicesOf (pre ++ getTitleCmd :: post)) jr, ?_, ?_⟩
  · simp [parseBatchResults, hc]
  · have hsplit : jsonIndicesOf (pre ++ getTitleCmd :: post) =
        jsonIndicesFrom 0 pre ++ (pre.length :: jsonIndicesFrom (pre.length + 1) post) := by
      rw [jsonIndicesOf, jsonIndicesFrom_append pre (getTitleCmd :: post) 0,
        jsonIndicesFrom_cons]
      simp [getTitleCmd]
    have hget : (jsonIndicesOf (pre ++ getTitleCmd :: post)).get? (jsonCount pre)
        = some pre.length := by
      rw [hsplit, ← jsonIndicesFrom_length pre 0]
      exact getq_append_len _ _ _
    exact setSlots_get (jsonIndicesOf (pre ++ getTitleCmd :: post)) jr
      (List.replicate (pre ++ getTitleCmd :: post).length JVal.null)
      (jsonCount pre) pre.length
      (jsonIndicesFrom_pairwise (pre ++ getTitleCmd :: post) 0)
      (fun x hx => by
        have hlt := jsonIndicesFrom_lt (pre ++ getTitleCmd :: post) 0 x hx
        simp only [List.length_replicate]
        omega)
      hget hk

/-- C7 counterexample: in a two-command asynchronous batch
`[click, get_title]` whose click emits no output, the single envelope
payload lands at result position 0, and there is no slot at the queued
`get_title` command's queue position 1 at all. -/
theorem c7_counterexample :
    (executeBatchAsync defaultBrowser [clickCmd "#a", getTitleCmd]
        (.done 0 envTitle "") true).result
      = .ok [JVal.obj [("title", JVal.str "T")]] ∧
    ([JVal.obj [("title", JVal.str "T")]] : List JVal).get? 1 = none := ⟨rfl, rfl⟩

/-- C7 witness: a concrete synchronous batch `[click, get_title]` whose
title envelope payload is delivered at queue position 1. -/
theorem c7_witness :
    ∃ r, parseBatchResults ("clicked\n" ++ envTitle)
        (jsonIndicesOf ([clickCmd "#a"] ++ getTitleCmd :: []))
        ([clickCmd "#a"] ++ getTitleCmd :: []).length = .ok r ∧
      r.get? [clickCmd "#a"].length
        = [JVal.obj [("title", JVal.str "T")]].get? (jsonCount [clickCmd "#a"]) :=
  c7_title_slot_alignment [clickCmd "#a"] [] ("clicked\n" ++ envTitle)
    [JVal.obj [("title", JVal.str "T")]] rfl (by decide)

/-- C8 (amended).  For a queued `eval` command the synchronous translation
passes the queued `json_output` flag through — `--json` is present exactly
when the flag was set, not always — and the asynchronous translation
falls into the default branch, which never emits `--json` at all. -/
theorem c8_eval_json_flag (c : Cmd) (hm : c.method = "eval")
    (ha : "--json" ∉ c.args) :
    (("--json" ∈ translateCmdSync defaultBrowser c) ↔ c.jsonOutput = true) ∧
    "--json" ∉ translateCmdAsync defaultBrowser c := by
  have hsync : translateCmdSync defaultBrowser c =
      buildCommand defaultBrowser ("eval" :: c.args) c.jsonOutput := by
    unfold translateCmdSync
    rw [hm, if_neg (by decide : ¬("eval" : String) = "get"), if_pos rfl]
  have hasync : translateCmdAsync defaultBrowser c =
      buildCommand defaultBrowser ("eval" :: c.args) false := by
    unfold translateCmdAsync
    rw [hm, if_neg (by decide : ¬("eval" : String) = "get"),
      if_neg (by decide : ¬("eval" : String) = "snapshot"),
      if_neg (by decide : ¬("eval" : String) = "open")]
  constructor
  · rw [hsync]
    cases hj : c.jsonOutput with
    | true =>
      simp [buildCommand, sessionOpt, defaultBrowser]
    | false =>
      simp [buildCommand, sessionOpt, defaultBrowser, ha]
  · rw [hasync]
    simp [buildCommand, sessionOpt, defaultBrowser, ha]

/-- C8 counterexample: a queued `eval` without the `json_output` flag is
translated by the synchronous executor to a command line without
`--json`, so structured output is not always requested. -/
theorem c8_counterexample :
    translateCmdSync defaultBrowser { method := "eval", args := ["1+1"] }
      = ["agent-browser", "eval", "1+1"] ∧
    "--json" ∉ (["agent-browser", "eval", "1+1"] : List String) := ⟨rfl, by decide⟩

/-- C8 witness: a queued `eval` with the flag set gets `--json` in the
synchronous translation and still no `--json` in the asynchronous one. -/
theorem c8_witness :
    (("--json" ∈ translateCmdSync defaultBrowser
        { method := "eval", args := ["2+2"], jsonOutput := true }) ↔
      ({ method := "eval", args := ["2+2"], jsonOutput := true } : Cmd).jsonOutput
        = true) ∧
    "--json" ∉ translateCmdAsync defaultBrowser
      { method := "eval", args := ["2+2"], jsonOutput := true } :=
  c8_eval_json_flag { method := "eval", args := ["2+2"], jsonOutput := true }
    rfl (by decide)

/-- C9 (amended).  When the first session listing reports no active
sessions, both sweep implementations return a closed count of zero and
perform zero close invocations — but they do perform exactly one external
invocation, the session-listing query itself. -/
theorem c9_sweep_zero_sessions (listProc closeProc : Nat → ProcResult) :
    (∀ v, listSessionsSync (listProc 0) = .ok v → jvalSessions v = [] →
      closeAllSessionsSync listProc closeProc = .ok ⟨0, 1, 0⟩) ∧
    (∀ v, listSessionsAsync (listProc 0) = .ok v → jvalSessions v = [] →
      closeAllSessionsAsync listProc closeProc = .ok ⟨0, 1, 0⟩) := by
  constructor
  · intro v h1 h2
    show closeAllGoSync listProc closeProc 2 2 0 ⟨0, 0, 0⟩ = .ok ⟨0, 1, 0⟩
    unfold closeAllGoSync
    rw [show (⟨0, 0, 0⟩ : SweepState).listCalls = 0 from rfl, h1]
    simp [h2]
  · intro v h1 h2
    show closeAllGoAsync listProc closeProc 3 ⟨0, 0, 0⟩ = .ok ⟨0, 1, 0⟩
    unfold closeAllGoAsync
    rw [show (⟨0, 0, 0⟩ : SweepState).listCalls = 0 from rfl, h1]
    simp [h2]

/-- C9 counterexample: with zero active sessions the sweep still performs
one external invocation (the listing subprocess), so "no external
invocation" fails even though the returned count is zero. -/
theorem c9_counterexample :
    closeAllSessionsSync (fun _ => .done 0 "" "") (fun _ => .done 0 "" "")
      = .ok ⟨0, 1, 0⟩ ∧
    (SweepState.mk 0 1 0).listCalls + (SweepState.mk 0 1 0).closeCalls ≠ 0 :=
  ⟨rfl, by decide⟩

/-- C9 witness: both sweeps at a concrete zero-session world. -/
theorem c9_witness :
    closeAllSessionsSync (fun _ => .done 0 "" "") (fun _ => .done 1 "" "fail")
      = .ok ⟨0, 1, 0⟩ ∧
    closeAllSessionsAsync (fun _ => .done 0 "" "") (fun _ => .done 1 "" "fail")
      = .ok ⟨0, 1, 0⟩ := by
  constructor
  · exact (c9_sweep_zero_sessions _ _).1 (.arr []) rfl rfl
  · exact (c9_sweep_zero_sessions _ _).2 (.arr []) rfl rfl

/-- C10 (amended).  The synchronous `list_sessions` returns the empty list
on a nonzero exit code, empty output, undecodable output, and a
`success: false` envelope.  The asynchronous variant does so for the first
three outcomes but never consults `success`: on a `success: false`
envelope it returns the envelope's `data` field, which is empty only when
that field is absent (or empty). -/
theorem c10_list_sessions_fallback (rc : Int) (out err : String) :
    (rc ≠ 0 → listSessionsSync (.done rc out err) = .ok (.arr []) ∧
      listSessionsAsync (.done rc out err) = .ok (.arr [])) ∧
    (listSessionsSync (.done rc "" err) = .ok (.arr []) ∧
      listSessionsAsync (.done rc "" err) = .ok (.arr [])) ∧
    (jsonParse out = none → listSessionsSync (.done rc out err) = .ok (.arr [])) ∧
    (jsonParse (pyStrip out) = none →
      listSessionsAsync (.done rc out err) = .ok (.arr [])) ∧
    (∀ fs, jsonParse out = some (.obj fs) →
      truthy (jget (.obj fs) "success") = false →
      listSessionsSync (.done rc out err) = .ok (.arr [])) ∧
    (∀ fs, rc = 0 → jsonParse (pyStrip out) = some (.obj fs) →
      listSessionsAsync (.done rc out err) = .ok (jgetD (.obj fs) "data" (.arr []))) := by
  refine ⟨?_, ?_, ?_, ?_, ?_, ?_⟩
  · intro h
    constructor <;> simp [listSessionsSync, listSessionsAsync, h]
  · constructor <;> simp [listSessionsSync, listSessionsAsync]
  · intro h
    simp [listSessionsSync, h]
  · intro h
    simp [listSessionsAsync, h]
  · intro fs h1 h2
    simp [listSessionsSync, h1, h2, isObj]
  · intro fs hrc h1
    subst hrc
    have hout : out ≠ "" := by
      intro he
      rw [he, show jsonParse (pyStrip "") = none from rfl] at h1
      cases h1
    simp [listSessionsAsync, hout, h1, isObj]

/-- C10 counterexample: a `success: false` envelope that carries a `data`
field makes the asynchronous `list_sessions` return that data instead of
the empty list. -/
theorem c10_counterexample :
    listSessionsAsync
        (.done 0 "\x7b\"success\": false, \"data\": [\"s1\"]\x7d" "")
      = .ok (.arr [.str "s1"]) ∧
    JVal.arr [.str "s1"] ≠ .arr [] := by
  refine ⟨rfl, ?_⟩
  intro h
  cases h

/-- C10 witness: the fallback facts at concrete failing outcomes. -/
theorem c10_witness :
    (listSessionsSync (.done 1 "oops" "e") = .ok (.arr []) ∧
      listSessionsAsync (.done 1 "oops" "e") = .ok (.arr [])) ∧
    listSessionsSync (.done 0 "not json" "") = .ok (.arr []) ∧
    listSessionsSync (.done 0 envFail "") = .ok (.arr []) := by
  refine ⟨?_, ?_, ?_⟩
  · exact (c10_list_sessions_fallback 1 "oops" "e").1 (by decide)
  · exact (c10_list_sessions_fallback 0 "not json" "").2.2.1 rfl
  · exact (c10_list_sessions_fallback 0 envFail "").2.2.2.2.1
      [("success", JVal.bool false), ("error", JVal.str "boom")] rfl rfl

end AgentBrowser
